import Mathlib

/-!
Verification development for the sylphie KVS subsystem
(`src/sylphie_database/src/kvs.rs`).

The Rust source is shallowly embedded: machine integers become `Nat` with
explicit reduction modulo `2 ^ 32` where overflow matters, fallible Rust code
returns `Except String`, the SQLite-backed state becomes explicit record
state, and async store operations become pure state-passing functions (the
database round-trips that can fail are parameterized by explicit outcome
flags).
-/

namespace Sylphie

/-! ## 32-bit word arithmetic (`u32` in the source) -/

def U32 : Nat := 4294967296

def add32 (a b : Nat) : Nat := (a + b) % U32

def xor32 (a b : Nat) : Nat := Nat.xor a b

def rotr32 (x n : Nat) : Nat :=
  (Nat.lor (Nat.shiftRight x n) (Nat.shiftLeft x (32 - n))) % U32

/-! ## blake3 (the `blake3` crate's `hash`/`to_hex`, used by
`InitKvsEvent::create_table_name`)

The reference blake3 algorithm: 64-byte blocks are compressed with a
7-round ChaCha-derived permutation; up-to-1024-byte chunks form the leaves
of a left-heavy binary tree whose nodes are combined with a parent
compression; the final compression carries the ROOT flag.  Flag constants:
CHUNK_START = 1, CHUNK_END = 2, PARENT = 4, ROOT = 8. -/

def blake3_iv : List Nat :=
  [0x6A09E667, 0xBB67AE85, 0x3C6EF372, 0xA54FF53A,
   0x510E527F, 0x9B05688C, 0x1F83D9AB, 0x5BE0CD19]

def blake3_msg_permutation : List Nat :=
  [2, 6, 3, 10, 7, 0, 4, 13, 1, 11, 12, 5, 9, 14, 15, 8]

def blake3_g (st : List Nat) (a b c d mx my : Nat) : List Nat :=
  let sa := add32 (add32 (st.getD a 0) (st.getD b 0)) mx
  let sd := rotr32 (xor32 (st.getD d 0) sa) 16
  let sc := add32 (st.getD c 0) sd
  let sb := rotr32 (xor32 (st.getD b 0) sc) 12
  let sa := add32 (add32 sa sb) my
  let sd := rotr32 (xor32 sd sa) 8
  let sc := add32 sc sd
  let sb := rotr32 (xor32 sb sc) 7
  (((st.set a sa).set b sb).set c sc).set d sd

def blake3_round (st m : List Nat) : List Nat :=
  let st := blake3_g st 0 4 8 12 (m.getD 0 0) (m.getD 1 0)
  let st := blake3_g st 1 5 9 13 (m.getD 2 0) (m.getD 3 0)
  let st := blake3_g st 2 6 10 14 (m.getD 4 0) (m.getD 5 0)
  let st := blake3_g st 3 7 11 15 (m.getD 6 0) (m.getD 7 0)
  let st := blake3_g st 0 5 10 15 (m.getD 8 0) (m.getD 9 0)
  let st := blake3_g st 1 6 11 12 (m.getD 10 0) (m.getD 11 0)
  let st := blake3_g st 2 7 8 13 (m.getD 12 0) (m.getD 13 0)
  blake3_g st 3 4 9 14 (m.getD 14 0) (m.getD 15 0)

def blake3_permute (m : List Nat) : List Nat :=
  blake3_msg_permutation.map (fun i => m.getD i 0)

def blake3_rounds : Nat → List Nat → List Nat → List Nat
  | 0, st, _ => st
  | n + 1, st, m => blake3_rounds n (blake3_round st m) (blake3_permute m)

def blake3_compress (cv block_words : List Nat) (counter block_len flags : Nat) :
    List Nat :=
  let st := cv.take 8 ++ blake3_iv.take 4 ++
    [counter % U32, counter / U32 % U32, block_len % U32, flags % U32]
  let st := blake3_rounds 7 st block_words
  (List.range 8).map (fun i => xor32 (st.getD i 0) (st.getD (i + 8) 0)) ++
    (List.range 8).map (fun i => xor32 (st.getD (i + 8) 0) (cv.getD i 0))

def bytes_to_words : List Nat → List Nat
  | b0 :: b1 :: b2 :: b3 :: rest =>
      (b0 + b1 * 256 + b2 * 65536 + b3 * 16777216) :: bytes_to_words rest
  | _ => []

def words_to_bytes (ws : List Nat) : List Nat :=
  ws.flatMap (fun w => [w % 256, w / 256 % 256, w / 65536 % 256, w / 16777216 % 256])

def pad_block (b : List Nat) : List Nat := b ++ List.replicate (64 - b.length) 0

def chunk_blocks (chunk : List Nat) : List (List Nat) :=
  if chunk.length = 0 then [[]]
  else (List.range ((chunk.length + 63) / 64)).map
    (fun i => (chunk.drop (64 * i)).take 64)

def chunk_compress_go : List Nat → Nat → Bool → Nat → List (List Nat) → List Nat
  | cv, _, _, _, [] => cv ++ cv
  | cv, counter, first, final_flags, [b] =>
      blake3_compress cv (bytes_to_words (pad_block b)) counter b.length
        ((if first then 1 else 0) + 2 + final_flags)
  | cv, counter, first, final_flags, b :: rest =>
      chunk_compress_go
        ((blake3_compress cv (bytes_to_words (pad_block b)) counter b.length
          (if first then 1 else 0)).take 8)
        counter false final_flags rest

def blake3_chunk (chunk : List Nat) (counter final_flags : Nat) : List Nat :=
  chunk_compress_go blake3_iv counter true final_flags (chunk_blocks chunk)

def blake3_node : Nat → List Nat → Nat → Nat → List Nat
  | 0, input, chunk_counter, final_flags =>
      blake3_chunk input chunk_counter final_flags
  | fuel + 1, input, chunk_counter, final_flags =>
      if input.length ≤ 1024 then blake3_chunk input chunk_counter final_flags
      else
        let full_chunks := (input.length - 1) / 1024
        let left_chunks := 2 ^ Nat.log 2 full_chunks
        let left_len := left_chunks * 1024
        let left_cv := (blake3_node fuel (input.take left_len) chunk_counter 0).take 8
        let right_cv :=
          (blake3_node fuel (input.drop left_len) (chunk_counter + left_chunks) 0).take 8
        blake3_compress blake3_iv (left_cv ++ right_cv) 0 64 (4 + final_flags)

def blake3_hash_bytes (input : List Nat) : List Nat :=
  words_to_bytes ((blake3_node input.length input 0 8).take 8)

def hex_char (n : Nat) : Char :=
  if n < 10 then Char.ofNat (48 + n) else Char.ofNat (87 + n)

def bytes_to_hex_chars (bs : List Nat) : List Char :=
  bs.flatMap (fun b => [hex_char (b / 16 % 16), hex_char (b % 16)])

def utf8_encode_char (c : Char) : List Nat :=
  let n := c.toNat
  if n < 0x80 then [n]
  else if n < 0x800 then [0xC0 + n / 64, 0x80 + n % 64]
  else if n < 0x10000 then [0xE0 + n / 4096, 0x80 + n / 64 % 64, 0x80 + n % 64]
  else [0xF0 + n / 262144, 0x80 + n / 4096 % 64, 0x80 + n / 64 % 64, 0x80 + n % 64]

def utf8_bytes (s : String) : List Nat := s.data.flatMap utf8_encode_char

/-! ## Table-name allocation (`InitKvsEvent::create_table_name`)

The source computes `blake3::hash(format!("{}|{}", unique_id, module_name))`,
takes the first 16 characters of its lowercase hex form, and prefixes
`"sylphie_db_kvsdata_"`; `unique_id` starts at 0 and increments until the
name is not already in `used_table_names`.  The Rust loop is syntactically
unbounded; it is embedded with fuel `used_table_names.length + 1`, which is
exhausted (result `none`) exactly when every probed name collides with a
used one, the case in which the Rust loop would keep probing. -/

def table_name_at (unique_id : Nat) (module_name : String) : String :=
  "sylphie_db_kvsdata_" ++ String.mk ((bytes_to_hex_chars (blake3_hash_bytes
    (utf8_bytes (toString unique_id ++ "|" ++ module_name)))).take 16)

def create_table_name_go (used : List String) (module_name : String) :
    Nat → Nat → Option String
  | 0, _ => none
  | fuel + 1, unique_id =>
    let table_name := table_name_at unique_id module_name
    if table_name ∈ used then create_table_name_go used module_name fuel (unique_id + 1)
    else some table_name

def create_table_name (used_table_names : List String) (module_name : String) :
    Option String :=
  create_table_name_go used_table_names module_name (used_table_names.length + 1) 0

/-! ## Data model of the KVS metadata (`KvsTarget`, `KvsMetadata`, the
`sylphie_db_kvs_info` tables, and the two storage areas) -/

structure KvsTarget where
  module_path : String
  is_transient : Bool
deriving DecidableEq

structure KvsMetadata where
  table_name : String
  key_id : Nat
  key_version : Nat
  is_used : Bool
deriving DecidableEq

/-- One row of a `sylphie_db_kvs_info` metadata table. -/
structure KvsInfoRow where
  module_path : String
  table_name : String
  kvs_schema_version : Nat
  key_id : Nat
  key_version : Nat
deriving DecidableEq

/-- One storage area (the main database, or the attached `transient.` one):
its `sylphie_db_kvs_info` metadata table and the set of existing KVS data
tables. -/
structure AreaState where
  kvs_info : List KvsInfoRow
  data_tables : List String
deriving DecidableEq

structure DbState where
  persistent : AreaState
  transient : AreaState
deriving DecidableEq

def DbState.area (db : DbState) (is_transient : Bool) : AreaState :=
  if is_transient then db.transient else db.persistent

def DbState.setArea (db : DbState) (is_transient : Bool) (a : AreaState) : DbState :=
  if is_transient then { db with transient := a } else { db with persistent := a }

/-- Modelled from the spec: the `StringInterner` service (`crate::interner`)
is not under `src/`.  Per the spec it is a process-wide bidirectional mapping
between schema-name strings and stable integer ids: `lookup_name` interns a
string (inserting if absent, ids stable for the lifetime of the database) and
`lookup_id` resolves an id back to its string.  It is modelled as a pure
bidirectional view; the statefulness of insertion is not observable by the
claims settled against it. -/
structure StringInterner where
  lookup_name : String → Nat
  lookup_id : Nat → String

/-! ### The in-memory metadata map (a `HashMap<KvsTarget, KvsMetadata>` in
the source), embedded as an association list with map semantics: `insert`
replaces any previous binding of the same key. -/

def lookupMeta : List (KvsTarget × KvsMetadata) → KvsTarget → Option KvsMetadata
  | [], _ => none
  | (k, v) :: rest, t => if k = t then some v else lookupMeta rest t

def eraseMeta : List (KvsTarget × KvsMetadata) → KvsTarget →
    List (KvsTarget × KvsMetadata)
  | [], _ => []
  | (k, v) :: rest, t =>
    if k = t then eraseMeta rest t else (k, v) :: eraseMeta rest t

def insertMeta (l : List (KvsTarget × KvsMetadata)) (t : KvsTarget)
    (m : KvsMetadata) : List (KvsTarget × KvsMetadata) :=
  (t, m) :: eraseMeta l t

/-- The in-place `existing_metadata.is_used = true` mutation performed
through `HashMap::get_mut` in `InitKvsEvent::init_module`. -/
def markUsed : List (KvsTarget × KvsMetadata) → KvsTarget →
    List (KvsTarget × KvsMetadata)
  | [], _ => []
  | (k, v) :: rest, t =>
    if k = t then (k, { v with is_used := true }) :: rest
    else (k, v) :: markUsed rest t

/-- `HashSet::insert` on a set embedded as a duplicate-free list. -/
def insertName (l : List String) (s : String) : List String :=
  if s ∈ l then l else s :: l

/-! ## The reconciliation event (`InitKvsEvent`) -/

structure InitKvsEvent where
  found_modules : List String
  used_table_names : List String
  module_metadata : List (KvsTarget × KvsMetadata)
  db : DbState
deriving DecidableEq

/-- Outcome oracle for the fallible database statements issued by
`InitKvsEvent::create_kvs_table`: whether the `CREATE TABLE`, the metadata
`INSERT`, and the transaction `commit` each succeed at the database level. -/
structure DdlOutcome where
  create_ok : Bool
  insert_ok : Bool
  commit_ok : Bool
deriving DecidableEq

/-- `InitKvsEvent::create_kvs_table`: inside one exclusive transaction,
create the data table in the chosen area and insert the metadata row into
that area's `sylphie_db_kvs_info`; only after `commit()` succeeds are the
in-memory `used_table_names` set and `module_metadata` map updated.  Returns
the `Result` together with the post-state (on error the transaction is
rolled back, so the post-state is the input state).  A `CREATE TABLE` for a
table name that already exists fails like any other statement failure. -/
def create_kvs_table (ev : InitKvsEvent) (intern : StringInterner)
    (oc : DdlOutcome) (module_path table_name : String) (key_id : String)
    (key_version : Nat) (is_transient : Bool) :
    Except String InitKvsEvent × InitKvsEvent :=
  let area0 := ev.db.area is_transient
  if ¬ oc.create_ok ∨ table_name ∈ area0.data_tables then
    (.error "CREATE TABLE failed", ev)
  else
    let area1 := { area0 with data_tables := table_name :: area0.data_tables }
    if ¬ oc.insert_ok then (.error "INSERT INTO sylphie_db_kvs_info failed", ev)
    else
      let area2 := { area1 with kvs_info := area1.kvs_info ++
        [⟨module_path, table_name, 0, intern.lookup_name key_id, key_version⟩] }
      if ¬ oc.commit_ok then (.error "transaction commit failed", ev)
      else
        let ev2 := { ev with
          db := ev.db.setArea is_transient area2,
          used_table_names := insertName ev.used_table_names table_name,
          module_metadata := insertMeta ev.module_metadata
            ⟨module_path, is_transient⟩
            ⟨table_name, intern.lookup_name key_id, key_version, true⟩ }
        (.ok ev2, ev2)

/-- `InitKvsEvent::init_module`, the per-store reconciliation handler.  The
`todo!("Conversions for mismatched kvs versions.")` panic in the source is
embedded as an error (either way the whole pass is aborted), and the fuel
exhaustion of `create_table_name` (a case in which the Rust loop would keep
probing) as an error as well. -/
def init_module (intern : StringInterner) (ev : InitKvsEvent) (oc : DdlOutcome)
    (key_id : String) (key_version : Nat) (mod_name : String)
    (is_transient : Bool) : Except String InitKvsEvent :=
  if mod_name ∈ ev.found_modules then
    .error ("Duplicate KVS module name found: " ++ mod_name)
  else
    let ev := { ev with found_modules := mod_name :: ev.found_modules }
    match lookupMeta ev.module_metadata ⟨mod_name, is_transient⟩ with
    | some existing_metadata =>
      let ev := { ev with
        module_metadata := markUsed ev.module_metadata ⟨mod_name, is_transient⟩ }
      if key_id = intern.lookup_id existing_metadata.key_id ∧
          key_version = existing_metadata.key_version then
        .ok ev
      else
        .error "todo: Conversions for mismatched kvs versions."
    | none =>
      match create_table_name ev.used_table_names mod_name with
      | none => .error "table name allocation did not terminate"
      | some table_name =>
        (create_kvs_table ev intern oc mod_name table_name key_id key_version
          is_transient).1

/-- `InitKvsEvent::load_kvs_metadata`, folded over the rows of one area's
`sylphie_db_kvs_info` table.  The `assert_eq!(schema_version, 0, ...)` panic
is embedded as an error. -/
def load_kvs_rows : InitKvsEvent → Bool → List KvsInfoRow →
    Except String InitKvsEvent
  | ev, _, [] => .ok ev
  | ev, is_transient, r :: rest =>
    if r.kvs_schema_version = 0 then
      load_kvs_rows { ev with
        used_table_names := insertName ev.used_table_names r.table_name,
        module_metadata := insertMeta ev.module_metadata
          ⟨r.module_path, is_transient⟩
          ⟨r.table_name, r.key_id, r.key_version, false⟩ } is_transient rest
    else .error "This database was created with a future version of Sylphie."

def load_kvs_metadata (ev : InitKvsEvent) (is_transient : Bool) :
    Except String InitKvsEvent :=
  load_kvs_rows ev is_transient (ev.db.area is_transient).kvs_info

/-- `DROP TABLE` of one data table; dropping a table that does not exist is
a database error. -/
def drop_table (a : AreaState) (name : String) : Except String AreaState :=
  if name ∈ a.data_tables then
    .ok { a with data_tables := a.data_tables.filter (fun t => decide (t ≠ name)) }
  else .error ("no such table: " ++ name)

/-- The cleanup loop of `init_kvs` (kvs.rs lines 226-235): for every
metadata entry still unused after reconciliation whose target is transient,
`DROP TABLE` its data table in the transient area.  This is the only
statement the loop issues. -/
def drop_unused_transient : DbState → List (KvsTarget × KvsMetadata) →
    Except String DbState
  | db, [] => .ok db
  | db, (key, metadata) :: rest =>
    if ¬ metadata.is_used ∧ key.is_transient then
      match drop_table (db.area key.is_transient) metadata.table_name with
      | .error e => .error e
      | .ok a => drop_unused_transient (db.setArea key.is_transient a) rest
    else drop_unused_transient db rest

/-- One store's declaration to the reconciliation pass: its key type's schema
name and version (`K::ID`, `K::SCHEMA_VERSION`), its module name, its
transient flag, and the outcome oracle for any DDL it may need. -/
structure KvsDecl where
  key_id : String
  key_version : Nat
  mod_name : String
  is_transient : Bool
  oc : DdlOutcome

/-- The synchronous dispatch of `InitKvsEvent` over all registered stores:
each handler runs `init_module`; the first failure aborts the pass. -/
def run_init_kvs_event (intern : StringInterner) :
    InitKvsEvent → List KvsDecl → Except String InitKvsEvent
  | ev, [] => .ok ev
  | ev, d :: rest =>
    match init_module intern ev d.oc d.key_id d.key_version d.mod_name
        d.is_transient with
    | .error e => .error e
    | .ok ev2 => run_init_kvs_event intern ev2 rest

/-- `init_kvs` (migrations aside, whose engine is not part of the claims):
load both areas' metadata, dispatch the reconciliation event, run the
cleanup loop, and hand the finalized metadata map to `InitKvsLate`. -/
def init_kvs (intern : StringInterner) (db : DbState) (decls : List KvsDecl) :
    Except String (List (KvsTarget × KvsMetadata) × DbState) := do
  let ev0 : InitKvsEvent := ⟨[], [], [], db⟩
  let ev1 ← load_kvs_metadata ev0 false
  let ev2 ← load_kvs_metadata ev1 true
  let ev3 ← run_init_kvs_event intern ev2 decls
  let db2 ← drop_unused_transient ev3.db ev3.module_metadata
  .ok (ev3.module_metadata, db2)

/-- The metadata lookup and table-name binding performed by
`BaseKvsStoreInfo::new` during finalization; the source unwraps the lookup
(`...get(&KvsTarget { ... }).unwrap()`), which is embedded as `Option`:
`none` is precisely the case in which the source panics. -/
def BaseKvsStoreInfo_new (late : List (KvsTarget × KvsMetadata))
    (module : String) (is_transient : Bool) : Option String :=
  (lookupMeta late ⟨module, is_transient⟩).map
    (fun m => (if is_transient then "transient." else "") ++ m.table_name)

/-! ## The runtime store (`BaseKvsStore<K, V, T>`) -/

/-- The `DbSerializable` capability of a key or value type: its schema name
(`ID`), its schema version (`SCHEMA_VERSION`), its serialization format, and
its migration capability (`can_migrate_from` / `do_migration`). -/
structure SerialOps (α : Type) where
  ID : String
  SCHEMA_VERSION : Nat
  serialize : α → Except String (List Nat)
  deserialize : List Nat → Except String α
  can_migrate_from : String → Nat → Bool
  do_migration : String → Nat → List Nat → Except String α

/-- One row of a namespace's data table: serialized value bytes plus the
writer's value schema identity. -/
structure ValueCell where
  value : List Nat
  value_schema_id : Nat
  value_schema_ver : Nat
deriving DecidableEq

/-- A namespace's data table, keyed by the serialized key bytes (the `key
BLOB PRIMARY KEY` column). -/
structure KvsDb where
  rows : List (List Nat × ValueCell)
deriving DecidableEq

def KvsDb.find : KvsDb → List Nat → Option ValueCell :=
  fun db kb => go db.rows kb
where
  go : List (List Nat × ValueCell) → List Nat → Option ValueCell
  | [], _ => none
  | (k, c) :: rest, kb => if k = kb then some c else go rest kb

/-- `REPLACE INTO ... (key, value, value_schema_id, value_schema_ver)`:
an upsert on the primary key. -/
def KvsDb.upsert (db : KvsDb) (kb : List Nat) (cell : ValueCell) : KvsDb :=
  ⟨(kb, cell) :: db.rows.filter (fun p => decide (p.1 ≠ kb))⟩

/-- `DELETE FROM ... WHERE key = ?`. -/
def KvsDb.delete (db : KvsDb) (kb : List Nat) : KvsDb :=
  ⟨db.rows.filter (fun p => decide (p.1 ≠ kb))⟩

/-- Modelled from the spec: `sylphie_utils::cache::LruCache` is not under
`src/`.  The spec describes it as a fixed-capacity, recency-ordered mapping
from key to value with a compute-if-absent operation (`cached_async`);
entries beyond capacity are evicted by recency, and a computation that fails
caches nothing.  Entries are held most-recent-first; recency refresh on a
cache hit has no effect observable by the claims settled here and is
omitted. -/
structure LruCache (K V : Type) where
  capacity : Nat
  entries : List (K × V)

def LruCache.get? {K V : Type} [DecidableEq K] (c : LruCache K V) (k : K) :
    Option V :=
  (c.entries.find? (fun p => decide (p.1 = k))).map (fun p => p.2)

def LruCache.insert {K V : Type} [DecidableEq K] (c : LruCache K V) (k : K)
    (v : V) : LruCache K V :=
  { c with entries :=
      ((k, v) :: c.entries.filter (fun p => decide (p.1 ≠ k))).take c.capacity }

/-- The runtime state of one `BaseKvsStore<K, V, T>` after finalization:
`T::IS_TRANSIENT`, the interner lock held in `BaseKvsStoreInfo`, the interned
id of the value type's schema name (`value_id`), the backing data table, and
the LRU cache (`LruCache::new(1024)` in the source; the capacity is carried
in the cache state).  The per-key `LockSet` serializes the three operations
per key; in this sequential embedding each operation already runs alone, so
the acquired-and-scope-dropped guard has no further effect to model. -/
structure BaseKvsStore (K V : Type) where
  is_transient : Bool
  interner : StringInterner
  value_id : Nat
  db : KvsDb
  cache : LruCache K (Option V)

/-- `KvsStoreQueries::load_value`: point lookup by serialized key, then the
schema case analysis on the stored row against the value type's current
identity. -/
def load_value {K V : Type} (K_ops : SerialOps K) (V_ops : SerialOps V)
    (intern : StringInterner) (db : KvsDb) (key : K)
    (is_migration_mandatory : Bool) : Except String (Option V) :=
  match K_ops.serialize key with
  | .error e => .error e
  | .ok kb =>
    match db.find kb with
    | none => .ok none
    | some cell =>
      let schema_name := intern.lookup_id cell.value_schema_id
      if V_ops.ID = schema_name ∧ V_ops.SCHEMA_VERSION = cell.value_schema_ver then
        match V_ops.deserialize cell.value with
        | .ok v => .ok (some v)
        | .error e => .error e
      else if V_ops.can_migrate_from schema_name cell.value_schema_ver then
        match V_ops.do_migration schema_name cell.value_schema_ver cell.value with
        | .ok v => .ok (some v)
        | .error e => .error e
      else if ¬ is_migration_mandatory then .ok none
      else
        .error ("Could not migrate value to current schema version! (old: " ++
          schema_name ++ " v" ++ toString cell.value_schema_id ++ ", new: " ++
          V_ops.ID ++ " v" ++ toString V_ops.SCHEMA_VERSION ++ ")")

/-- `KvsStoreQueries::store_value`: serialize key and value, then execute the
upsert recording the value's current schema identity. -/
def store_value {K V : Type} (K_ops : SerialOps K) (V_ops : SerialOps V)
    (db : KvsDb) (key : K) (value : V) (value_schema_id : Nat) :
    Except String KvsDb :=
  match K_ops.serialize key with
  | .error e => .error e
  | .ok kb =>
    match V_ops.serialize value with
    | .error e => .error e
    | .ok vb => .ok (db.upsert kb ⟨vb, value_schema_id, V_ops.SCHEMA_VERSION⟩)

/-- `KvsStoreQueries::delete_value`. -/
def delete_value {K : Type} (K_ops : SerialOps K) (db : KvsDb) (key : K) :
    Except String KvsDb :=
  match K_ops.serialize key with
  | .error e => .error e
  | .ok kb => .ok (db.delete kb)

/-- `BaseKvsStore::get`.  `db_ok` is the outcome of the database round-trip
(`connect_db` and the query); the per-key lock guard is acquired for the
whole call.  The cache's compute-if-absent (`cached_async`) returns a cached
entry when present and otherwise runs `load_value` with
`is_migration_mandatory = !T::IS_TRANSIENT`, caching only a successful
result.  Each operation returns its `Result` together with the post-state. -/
def BaseKvsStore.get {K V : Type} [DecidableEq K] (K_ops : SerialOps K)
    (V_ops : SerialOps V) (s : BaseKvsStore K V) (db_ok : Bool) (k : K) :
    Except String (Option V) × BaseKvsStore K V :=
  if ¬ db_ok then (.error "database connection failed", s)
  else
    match s.cache.get? k with
    | some v => (.ok v, s)
    | none =>
      match load_value K_ops V_ops s.interner s.db k (! s.is_transient) with
      | .error e => (.error e, s)
      | .ok v => (.ok v, { s with cache := s.cache.insert k v })

/-- `BaseKvsStore::set`: the `store_value` upsert is awaited first; only
when it succeeds is the cache entry replaced by `Some(v)`. -/
def BaseKvsStore.set {K V : Type} [DecidableEq K] (K_ops : SerialOps K)
    (V_ops : SerialOps V) (s : BaseKvsStore K V) (db_ok : Bool) (k : K)
    (v : V) : Except String Unit × BaseKvsStore K V :=
  if ¬ db_ok then (.error "database connection failed", s)
  else
    match store_value K_ops V_ops s.db k v s.value_id with
    | .error e => (.error e, s)
    | .ok db2 => (.ok (), { s with db := db2, cache := s.cache.insert k (some v) })

/-- `BaseKvsStore::remove`: the `delete_value` is awaited first; only when
it succeeds is the cache entry replaced by the confirmed absence `None`. -/
def BaseKvsStore.remove {K V : Type} [DecidableEq K] (K_ops : SerialOps K)
    (s : BaseKvsStore K V) (db_ok : Bool) (k : K) :
    Except String Unit × BaseKvsStore K V :=
  if ¬ db_ok then (.error "database connection failed", s)
  else
    match delete_value K_ops s.db k with
    | .error e => (.error e, s)
    | .ok db2 => (.ok (), { s with db := db2, cache := s.cache.insert k none })

/-! ## Helper lemmas -/

theorem lru_insert_get_self {K V : Type} [DecidableEq K] (c : LruCache K V)
    (k : K) (v : V) (h : 0 < c.capacity) :
    (c.insert k v).get? k = some v := by
  obtain ⟨n, hn⟩ : ∃ n, c.capacity = n + 1 := ⟨c.capacity - 1, by omega⟩
  simp [LruCache.insert, LruCache.get?, hn, List.take_succ_cons, List.find?_cons]

/-! ## The claims -/

/-- C3: after an initialized store completes `set(k, v)` successfully, a
`get(k)` with no intervening `set`/`remove` on `k` returns `Some(v)`; after
it completes `remove(k)` successfully, such a `get(k)` returns `None`. -/
theorem claim_c3_set_remove_get {K V : Type} [DecidableEq K]
    (K_ops : SerialOps K) (V_ops : SerialOps V) (s s2 : BaseKvsStore K V)
    (k : K) (v : V) (hcap : 0 < s.cache.capacity) :
    (BaseKvsStore.set K_ops V_ops s true k v = (.ok (), s2) →
      BaseKvsStore.get K_ops V_ops s2 true k = (.ok (some v), s2)) ∧
    (BaseKvsStore.remove K_ops s true k = (.ok (), s2) →
      BaseKvsStore.get K_ops V_ops s2 true k = (.ok none, s2)) := by
  constructor
  · intro h
    simp only [BaseKvsStore.set] at h
    cases hsv : store_value K_ops V_ops s.db k v s.value_id with
    | error e => rw [hsv] at h; simp at h
    | ok db2 =>
      rw [hsv] at h
      simp at h
      subst h
      have hg := lru_insert_get_self s.cache k (some v) hcap
      simp [BaseKvsStore.get, hg]
  · intro h
    simp only [BaseKvsStore.remove] at h
    cases hdv : delete_value K_ops s.db k with
    | error e => rw [hdv] at h; simp at h
    | ok db2 =>
      rw [hdv] at h
      simp at h
      subst h
      have hg := lru_insert_get_self s.cache k (none : Option V) hcap
      simp [BaseKvsStore.get, hg]

/-- C7: `set(k, v)` is write-through: when the database round-trip fails, or
the upsert itself fails, `set` propagates the error and the whole store
state — in particular the cache — is unchanged; only when the upsert
completes successfully is the cache entry for `k` replaced by `Some(v)`. -/
theorem claim_c7_set_write_through {K V : Type} [DecidableEq K]
    (K_ops : SerialOps K) (V_ops : SerialOps V) (s : BaseKvsStore K V)
    (k : K) (v : V) :
    (BaseKvsStore.set K_ops V_ops s false k v =
      (.error "database connection failed", s)) ∧
    (∀ e, store_value K_ops V_ops s.db k v s.value_id = .error e →
      BaseKvsStore.set K_ops V_ops s true k v = (.error e, s)) ∧
    (∀ db2, store_value K_ops V_ops s.db k v s.value_id = .ok db2 →
      BaseKvsStore.set K_ops V_ops s true k v =
        (.ok (), { s with db := db2, cache := s.cache.insert k (some v) })) := by
  refine ⟨by simp [BaseKvsStore.set], fun e he => ?_, fun db2 hdb => ?_⟩
  · simp [BaseKvsStore.set, he]
  · simp [BaseKvsStore.set, hdb]

/-- C6: `create_kvs_table` runs the `CREATE TABLE` and the metadata `INSERT`
inside one exclusive transaction: whenever any statement (or the commit)
fails, the returned post-state is exactly the input state, so neither the
data table nor the metadata row persists and the in-memory `module_metadata`
map and `used_table_names` set are untouched; when everything succeeds, the
table, the metadata row, and both in-memory updates are all present. -/
theorem claim_c6_create_table_atomic (ev : InitKvsEvent)
    (intern : StringInterner) (oc : DdlOutcome) (mp tn kid : String)
    (kver : Nat) (t : Bool) :
    (∀ e ev2, create_kvs_table ev intern oc mp tn kid kver t = (.error e, ev2) →
      ev2 = ev) ∧
    ((oc.create_ok = false ∨ oc.insert_ok = false ∨ oc.commit_ok = false) →
      ∃ e, (create_kvs_table ev intern oc mp tn kid kver t).1 = .error e) ∧
    (∀ ev2, (create_kvs_table ev intern oc mp tn kid kver t).1 = .ok ev2 →
      create_kvs_table ev intern oc mp tn kid kver t = (.ok ev2, ev2) ∧
      tn ∈ (ev2.db.area t).data_tables ∧
      (⟨mp, tn, 0, intern.lookup_name kid, kver⟩ : KvsInfoRow) ∈
        (ev2.db.area t).kvs_info ∧
      tn ∈ ev2.used_table_names ∧
      lookupMeta ev2.module_metadata ⟨mp, t⟩ =
        some ⟨tn, intern.lookup_name kid, kver, true⟩) := by
  obtain ⟨co, io, mo⟩ := oc
  refine ⟨?_, ?_, ?_⟩
  · intro e ev2 h
    by_cases hmem : tn ∈ (ev.db.area t).data_tables <;>
      cases co <;> cases io <;> cases mo <;>
      simp [create_kvs_table, hmem] at h <;>
      exact h.2.symm
  · intro hfail
    by_cases hmem : tn ∈ (ev.db.area t).data_tables <;>
      cases co <;> cases io <;> cases mo <;>
      (try simp [create_kvs_table, hmem])
    all_goals simp_all
  · intro ev2 h
    by_cases hmem : tn ∈ (ev.db.area t).data_tables <;>
      cases co <;> cases io <;> cases mo <;>
      simp [create_kvs_table, hmem] at h
    subst h
    refine ⟨?_, ?_, ?_, ?_, ?_⟩
    · simp [create_kvs_table, hmem]
    · cases t <;> simp [create_kvs_table, hmem, DbState.area, DbState.setArea]
    · cases t <;> simp [create_kvs_table, hmem, DbState.area, DbState.setArea]
    · simp only [create_kvs_table, hmem]
      simp [insertName]
      by_cases h2 : tn ∈ ev.used_table_names <;> simp [h2]
    · simp [create_kvs_table, hmem, insertMeta, lookupMeta]

theorem drop_unused_transient_tables_antitone (l : List (KvsTarget × KvsMetadata)) :
    ∀ db db2, drop_unused_transient db l = .ok db2 →
      (∀ x, x ∈ db2.transient.data_tables → x ∈ db.transient.data_tables) ∧
      db2.transient.kvs_info = db.transient.kvs_info ∧
      db2.persistent = db.persistent := by
  induction l with
  | nil =>
    intro db db2 h
    simp only [drop_unused_transient, Except.ok.injEq] at h
    subst h
    exact ⟨fun x hx => hx, rfl, rfl⟩
  | cons p rest ih =>
    intro db db2 h
    obtain ⟨key, metadata⟩ := p
    simp only [drop_unused_transient] at h
    split at h
    · rename_i hcond
      obtain ⟨hu, ht⟩ := hcond
      rw [ht] at h
      by_cases hmem0 : metadata.table_name ∈ db.transient.data_tables
      · simp only [DbState.area, DbState.setArea, drop_table, hmem0, if_true,
          if_pos, ite_true] at h
        obtain ⟨h1, h2, h3⟩ := ih _ _ h
        refine ⟨fun x hx => ?_, h2, h3⟩
        have hx2 := h1 x hx
        simp only [List.mem_filter] at hx2
        exact hx2.1
      · simp [DbState.area, drop_table, hmem0] at h
    · exact ih _ _ h

/-- C2 counterexample: a transient metadata entry left unused by
reconciliation.  Running the cleanup loop of `init_kvs` on it drops its data
table, but its metadata row is still present in the transient
`sylphie_db_kvs_info` afterwards — the loop issues no `DELETE`, so the
claim's "its metadata row deleted from the transient kvs_info table" fails
on this input. -/
theorem claim_c2_counterexample :
    drop_unused_transient
      ⟨⟨[], []⟩, ⟨[⟨"m", "t1", 0, 7, 1⟩], ["t1"]⟩⟩
      [(⟨"m", true⟩, ⟨"t1", 7, 1, false⟩)] =
      .ok ⟨⟨[], []⟩, ⟨[⟨"m", "t1", 0, 7, 1⟩], []⟩⟩ ∧
    (⟨"m", "t1", 0, 7, 1⟩ : KvsInfoRow) ∈
      (DbState.mk ⟨[], []⟩ ⟨[⟨"m", "t1", 0, 7, 1⟩], []⟩).transient.kvs_info := by
  exact ⟨rfl, by decide⟩

theorem drop_unused_transient_not_mem (l : List (KvsTarget × KvsMetadata)) :
    ∀ db db2, drop_unused_transient db l = .ok db2 →
      ∀ key metadata, (key, metadata) ∈ l → metadata.is_used = false →
        key.is_transient = true →
        metadata.table_name ∉ db2.transient.data_tables := by
  induction l with
  | nil => intro db db2 h key metadata hmem; simp at hmem
  | cons p rest ih =>
    intro db db2 h key metadata hmem hu ht
    obtain ⟨key0, metadata0⟩ := p
    simp only [drop_unused_transient] at h
    split at h
    · rename_i hcond
      obtain ⟨hu0, ht0⟩ := hcond
      rw [ht0] at h
      by_cases hmem0 : metadata0.table_name ∈ db.transient.data_tables
      · simp only [DbState.area, DbState.setArea, drop_table, hmem0, if_true,
          if_pos, ite_true] at h
        rcases List.mem_cons.mp hmem with heq | htail
        · have hk : key = key0 := congrArg Prod.fst heq
          have hm : metadata = metadata0 := congrArg Prod.snd heq
          subst hk; subst hm
          intro hbad
          have h1 := (drop_unused_transient_tables_antitone rest _ _ h).1
            metadata.table_name hbad
          simp at h1
        · exact ih _ _ h _ _ htail hu ht
      · simp [DbState.area, drop_table, hmem0] at h
    · rename_i hcond
      rcases List.mem_cons.mp hmem with heq | htail
      · have hk : key = key0 := congrArg Prod.fst heq
        have hm : metadata = metadata0 := congrArg Prod.snd heq
        subst hk; subst hm
        exact absurd ⟨by simp [hu], ht⟩ hcond
      · exact ih _ _ h _ _ htail hu ht

/-- C2 (amended): after the cleanup phase completes successfully, every
metadata entry whose `is_used` flag is still false and whose target is
transient has its data table dropped from the transient area, but its
metadata row is retained (the transient `sylphie_db_kvs_info` table is left
unchanged by the cleanup loop), and the persistent area — unused entries
included — is left entirely untouched. -/
theorem claim_c2_cleanup_amended (db db2 : DbState)
    (l : List (KvsTarget × KvsMetadata))
    (h : drop_unused_transient db l = .ok db2) :
    (∀ key metadata, (key, metadata) ∈ l → metadata.is_used = false →
      key.is_transient = true →
      metadata.table_name ∉ db2.transient.data_tables) ∧
    db2.transient.kvs_info = db.transient.kvs_info ∧
    db2.persistent = db.persistent :=
  ⟨drop_unused_transient_not_mem l db db2 h,
    (drop_unused_transient_tables_antitone l db db2 h).2⟩

theorem create_kvs_table_ok_shape (ev : InitKvsEvent) (intern : StringInterner)
    (oc : DdlOutcome) (mp tn kid : String) (kver : Nat) (t : Bool)
    (ev2 : InitKvsEvent)
    (h : (create_kvs_table ev intern oc mp tn kid kver t).1 = .ok ev2) :
    ev2.found_modules = ev.found_modules ∧
    ev2.module_metadata = insertMeta ev.module_metadata ⟨mp, t⟩
      ⟨tn, intern.lookup_name kid, kver, true⟩ := by
  obtain ⟨co, io, mo⟩ := oc
  by_cases hmem : tn ∈ (ev.db.area t).data_tables <;>
    cases co <;> cases io <;> cases mo <;>
    simp [create_kvs_table, hmem] at h
  subst h
  exact ⟨rfl, rfl⟩

theorem lookupMeta_eraseMeta_ne (t t2 : KvsTarget) (h : t2 ≠ t) :
    ∀ l, lookupMeta (eraseMeta l t) t2 = lookupMeta l t2 := by
  intro l
  induction l with
  | nil => rfl
  | cons p rest ih =>
    obtain ⟨k, v⟩ := p
    by_cases hk : k = t
    · have hkt2 : ¬ k = t2 := fun he => h (he.symm.trans hk)
      simp only [eraseMeta, if_pos hk, ih, lookupMeta, if_neg hkt2]
    · simp only [eraseMeta, if_neg hk, lookupMeta]
      by_cases hk2 : k = t2 <;> simp [hk2, ih]

theorem lookupMeta_insertMeta (l : List (KvsTarget × KvsMetadata))
    (t t2 : KvsTarget) (m : KvsMetadata) :
    lookupMeta (insertMeta l t m) t2 =
      if t2 = t then some m else lookupMeta l t2 := by
  by_cases h : t2 = t
  · subst h; simp [insertMeta, lookupMeta]
  · simp only [insertMeta, lookupMeta, if_neg (fun he : t = t2 => h he.symm),
      if_neg h, lookupMeta_eraseMeta_ne t t2 h l]

theorem lookupMeta_markUsed (t t2 : KvsTarget) :
    ∀ l, lookupMeta (markUsed l t) t2 =
      (lookupMeta l t2).map
        (fun m => if t2 = t then { m with is_used := true } else m) := by
  intro l
  induction l with
  | nil => rfl
  | cons p rest ih =>
    obtain ⟨k, v⟩ := p
    by_cases hk : k = t
    · by_cases hk2 : k = t2
      · have ht2t : t2 = t := hk2.symm.trans hk
        simp [markUsed, if_pos hk, lookupMeta, if_pos hk2, ht2t]
      · have ht2t : ¬ t2 = t := fun he => hk2 (hk.trans he.symm)
        simp only [markUsed, if_pos hk, lookupMeta, if_neg hk2]
        cases lookupMeta rest t2 <;> simp [ht2t]
    · by_cases hk2 : k = t2
      · have ht2t : ¬ t2 = t := fun he => hk (hk2.trans he)
        simp [markUsed, if_neg hk, lookupMeta, if_pos hk2, ht2t]
      · simp [markUsed, if_neg hk, lookupMeta, hk2, ih]

theorem init_module_ok_found (intern : StringInterner) (ev : InitKvsEvent)
    (oc : DdlOutcome) (kid : String) (kver : Nat) (mod_name : String)
    (t : Bool) (ev2 : InitKvsEvent)
    (h : init_module intern ev oc kid kver mod_name t = .ok ev2) :
    ev2.found_modules = mod_name :: ev.found_modules ∧
    mod_name ∉ ev.found_modules := by
  simp only [init_module] at h
  split at h
  · exact absurd h (by simp)
  · rename_i hnm
    split at h
    · split at h
      · simp only [Except.ok.injEq] at h
        subst h
        exact ⟨rfl, hnm⟩
      · exact absurd h (by simp)
    · split at h
      · exact absurd h (by simp)
      · exact ⟨(create_kvs_table_ok_shape _ _ _ _ _ _ _ _ _ h).1, hnm⟩

theorem init_module_ok_lookup (intern : StringInterner) (ev : InitKvsEvent)
    (oc : DdlOutcome) (kid : String) (kver : Nat) (mod_name : String)
    (t : Bool) (ev2 : InitKvsEvent)
    (h : init_module intern ev oc kid kver mod_name t = .ok ev2) :
    (lookupMeta ev2.module_metadata ⟨mod_name, t⟩).isSome = true ∧
    (∀ tgt, (lookupMeta ev.module_metadata tgt).isSome = true →
      (lookupMeta ev2.module_metadata tgt).isSome = true) := by
  simp only [init_module] at h
  split at h
  · exact absurd h (by simp)
  · rename_i hnm
    split at h
    · rename_i existing hsome
      split at h
      · simp only [Except.ok.injEq] at h
        subst h
        constructor
        · simp [lookupMeta_markUsed, hsome]
        · intro tgt htgt
          simp only [lookupMeta_markUsed]
          cases hx : lookupMeta ev.module_metadata tgt
          · rw [hx] at htgt; simp at htgt
          · simp
      · exact absurd h (by simp)
    · split at h
      · exact absurd h (by simp)
      · have hshape := (create_kvs_table_ok_shape _ _ _ _ _ _ _ _ _ h).2
        constructor
        · rw [hshape, lookupMeta_insertMeta]
          simp
        · intro tgt htgt
          rw [hshape, lookupMeta_insertMeta]
          split
          · rfl
          · exact htgt

theorem run_init_preserves_lookup (intern : StringInterner)
    (decls : List KvsDecl) :
    ∀ ev ev2, run_init_kvs_event intern ev decls = .ok ev2 →
      ∀ tgt, (lookupMeta ev.module_metadata tgt).isSome = true →
        (lookupMeta ev2.module_metadata tgt).isSome = true := by
  induction decls with
  | nil =>
    intro ev ev2 h
    simp only [run_init_kvs_event, Except.ok.injEq] at h
    subst h
    exact fun _ => id
  | cons d rest ih =>
    intro ev ev2 h tgt htgt
    simp only [run_init_kvs_event] at h
    split at h
    · exact absurd h (by simp)
    · rename_i ev1 hok
      exact ih _ _ h tgt ((init_module_ok_lookup _ _ _ _ _ _ _ _ hok).2 tgt htgt)

/-- C4: within one reconciliation pass, a second namespace declaration
carrying an already-declared module name fails `init_module` — and with it
the whole dispatched pass — with the duplicate-module fatal error; the check
is keyed purely on the module name: the two declarations' transient flags
`t1`, `t2` (and key schemas) are arbitrary and independent, so a module
declaring both a transient and a persistent namespace is rejected too. -/
theorem claim_c4_duplicate_module (intern : StringInterner)
    (ev ev2 : InitKvsEvent) (oc1 oc2 : DdlOutcome) (k1 k2 mod_name : String)
    (v1 v2 : Nat) (t1 t2 : Bool)
    (h : init_module intern ev oc1 k1 v1 mod_name t1 = .ok ev2) :
    init_module intern ev2 oc2 k2 v2 mod_name t2 =
      .error ("Duplicate KVS module name found: " ++ mod_name) ∧
    ∀ rest, run_init_kvs_event intern ev2 (⟨k2, v2, mod_name, t2, oc2⟩ :: rest) =
      .error ("Duplicate KVS module name found: " ++ mod_name) := by
  have hmem : mod_name ∈ ev2.found_modules :=
    (init_module_ok_found _ _ _ _ _ _ _ _ h).1 ▸ List.mem_cons_self _ _
  have h1 : init_module intern ev2 oc2 k2 v2 mod_name t2 =
      .error ("Duplicate KVS module name found: " ++ mod_name) := by
    simp [init_module, hmem]
  exact ⟨h1, fun rest => by simp [run_init_kvs_event, h1]⟩

theorem run_init_lookup_of_mem (intern : StringInterner)
    (decls : List KvsDecl) :
    ∀ ev ev2, run_init_kvs_event intern ev decls = .ok ev2 → ∀ d ∈ decls,
      (lookupMeta ev2.module_metadata
        ⟨d.mod_name, d.is_transient⟩).isSome = true := by
  induction decls with
  | nil => intro ev ev2 h d hd; simp at hd
  | cons d0 rest ih =>
    intro ev ev2 h d hd
    simp only [run_init_kvs_event] at h
    split at h
    · exact absurd h (by simp)
    · rename_i ev1 hok
      rcases List.mem_cons.mp hd with heq | htail
      · subst heq
        exact run_init_preserves_lookup intern rest _ _ h _
          (init_module_ok_lookup _ _ _ _ _ _ _ _ hok).1
      · exact ih _ _ h d htail

/-- C8: finalization cannot fail.  If the reconciliation pass completes
successfully, then for every declaration `d` processed in the pass the
finalized metadata map contains an entry for `(d.mod_name, d.is_transient)`
— either the matched pre-existing entry or the one inserted when the table
was created — so the lookup that `BaseKvsStoreInfo::new` unwraps during
`InitKvsLate` is `some` (the unwrap is unreachable). -/
theorem claim_c8_finalization_lookup (intern : StringInterner)
    (ev ev2 : InitKvsEvent) (decls : List KvsDecl) (d : KvsDecl)
    (hrun : run_init_kvs_event intern ev decls = .ok ev2) (hd : d ∈ decls) :
    (BaseKvsStoreInfo_new ev2.module_metadata d.mod_name
      d.is_transient).isSome = true := by
  have hlook := run_init_lookup_of_mem intern decls ev ev2 hrun d hd
  simp only [BaseKvsStoreInfo_new]
  cases hx : lookupMeta ev2.module_metadata ⟨d.mod_name, d.is_transient⟩
  · rw [hx] at hlook; simp at hlook
  · simp

theorem mem_insertName_self (l : List String) (s : String) : s ∈ insertName l s := by
  unfold insertName
  split
  · assumption
  · exact List.mem_cons_self _ _

theorem mem_insertName_of_mem (l : List String) (s x : String) (h : x ∈ l) :
    x ∈ insertName l s := by
  unfold insertName
  split
  · exact h
  · exact List.mem_cons_of_mem _ h

theorem load_kvs_rows_preserves (t : Bool) (rows : List KvsInfoRow) :
    ∀ ev ev2, load_kvs_rows ev t rows = .ok ev2 →
      (∀ x, x ∈ ev.used_table_names → x ∈ ev2.used_table_names) ∧
      (∀ tgt, (∃ m, lookupMeta ev.module_metadata tgt = some m ∧
          m.is_used = false) →
        (∃ m, lookupMeta ev2.module_metadata tgt = some m ∧
          m.is_used = false)) := by
  induction rows with
  | nil =>
    intro ev ev2 h
    simp only [load_kvs_rows, Except.ok.injEq] at h
    subst h
    exact ⟨fun _ => id, fun _ => id⟩
  | cons r rest ih =>
    intro ev ev2 h
    simp only [load_kvs_rows] at h
    split at h
    · obtain ⟨h1, h2⟩ := ih _ _ h
      refine ⟨fun x hx => h1 x (mem_insertName_of_mem _ _ _ hx),
        fun tgt htgt => h2 tgt ?_⟩
      rw [lookupMeta_insertMeta]
      split
      · exact ⟨_, rfl, rfl⟩
      · exact htgt
    · exact absurd h (by simp)

theorem load_kvs_rows_spec (t : Bool) (rows : List KvsInfoRow) :
    ∀ ev, ((load_kvs_rows ev t rows).isOk = true ↔
        ∀ r ∈ rows, r.kvs_schema_version = 0) ∧
      (∀ ev2, load_kvs_rows ev t rows = .ok ev2 →
        ∀ r ∈ rows, r.table_name ∈ ev2.used_table_names ∧
          ∃ m, lookupMeta ev2.module_metadata ⟨r.module_path, t⟩ = some m ∧
            m.is_used = false) := by
  induction rows with
  | nil =>
    intro ev
    constructor
    · simp [load_kvs_rows, Except.isOk, Except.toBool]
    · intro ev2 h r hr
      simp at hr
  | cons r rest ih =>
    intro ev
    constructor
    · by_cases hv : r.kvs_schema_version = 0
      · simp only [load_kvs_rows, if_pos hv]
        rw [(ih _).1]
        constructor
        · intro hall r2 hr2
          rcases List.mem_cons.mp hr2 with heq | htail
          · subst heq; exact hv
          · exact hall r2 htail
        · intro hall r2 hr2
          exact hall r2 (List.mem_cons_of_mem _ hr2)
      · simp only [load_kvs_rows, if_neg hv]
        constructor
        · intro habs
          exact absurd habs (by simp [Except.isOk, Except.toBool])
        · intro hall
          exact absurd (hall r (List.mem_cons_self _ _)) hv
    · intro ev2 h r2 hr2
      simp only [load_kvs_rows] at h
      split at h
      · rcases List.mem_cons.mp hr2 with heq | htail
        · subst heq
          obtain ⟨h1, h2⟩ := load_kvs_rows_preserves t rest _ _ h
          refine ⟨h1 _ (mem_insertName_self _ _), h2 _ ?_⟩
          rw [lookupMeta_insertMeta]
          simp
        · exact (ih _).2 _ h r2 htail
      · exact absurd h (by simp)

/-- C10: `load_kvs_metadata` fails — the `assert_eq!` reports the database
as created by a future version of Sylphie — exactly when some row of the
chosen area's `sylphie_db_kvs_info` has `kvs_schema_version ≠ 0`; when every
row has version 0 it succeeds, and every row ends up entered in the
in-memory metadata map with `is_used` initialized to `false` and its table
name added to the used-table-name set. -/
theorem claim_c10_load_metadata (ev : InitKvsEvent) (t : Bool) :
    ((load_kvs_metadata ev t).isOk = true ↔
      ∀ r ∈ (ev.db.area t).kvs_info, r.kvs_schema_version = 0) ∧
    (∀ ev2, load_kvs_metadata ev t = .ok ev2 →
      ∀ r ∈ (ev.db.area t).kvs_info,
        r.table_name ∈ ev2.used_table_names ∧
        ∃ m, lookupMeta ev2.module_metadata ⟨r.module_path, t⟩ = some m ∧
          m.is_used = false) :=
  load_kvs_rows_spec t (ev.db.area t).kvs_info ev

theorem create_table_name_go_spec (used : List String) (module_name : String) :
    ∀ fuel start name,
      create_table_name_go used module_name fuel start = some name →
      ∃ n, start ≤ n ∧ name = table_name_at n module_name ∧ name ∉ used ∧
        ∀ j, start ≤ j → j < n → table_name_at j module_name ∈ used := by
  intro fuel
  induction fuel with
  | zero => intro start name h; simp [create_table_name_go] at h
  | succ fuel ih =>
    intro start name h
    simp only [create_table_name_go] at h
    split at h
    · rename_i hmem
      obtain ⟨n, hn1, hn2, hn3, hn4⟩ := ih (start + 1) name h
      refine ⟨n, by omega, hn2, hn3, fun j hj1 hj2 => ?_⟩
      rcases Nat.eq_or_lt_of_le hj1 with heq | hlt
      · exact heq ▸ hmem
      · exact hn4 j hlt hj2
    · rename_i hmem
      simp only [Option.some.injEq] at h
      subst h
      exact ⟨start, Nat.le_refl _, rfl, hmem, fun j hj1 hj2 => by omega⟩

/-- C5: a successful table-name allocation returns the fixed prefix
`"sylphie_db_kvsdata_"` followed by the first 16 hex characters of the
blake3 hash of `"{nonce}|{module_name}"` (`table_name_at`), where the nonce
is the least natural number (starting from 0) whose resulting name is not
already among the used table names; and because the returned name is never
in the used set, a second allocation performed against a used set containing
the first name — as reconciliation maintains — can never return the same
name, even when module names hash-collide at nonce 0. -/
theorem claim_c5_table_name_allocation (used used2 : List String)
    (mn mn2 name name2 : String)
    (h : create_table_name used mn = some name)
    (h2 : create_table_name used2 mn2 = some name2)
    (hmem : name ∈ used2) :
    (∃ n, name = table_name_at n mn ∧ name ∉ used ∧
      ∀ j, j < n → table_name_at j mn ∈ used) ∧ name2 ≠ name := by
  obtain ⟨n, -, hn2, hn3, hn4⟩ := create_table_name_go_spec used mn _ _ _ h
  obtain ⟨n2, -, -, hn3b, -⟩ := create_table_name_go_spec used2 mn2 _ _ _ h2
  exact ⟨⟨n, hn2, hn3, fun j hj => hn4 j (Nat.zero_le _) hj⟩,
    fun he => hn3b (he ▸ hmem)⟩

theorem get_cold_cache {K V : Type} [DecidableEq K] (K_ops : SerialOps K)
    (V_ops : SerialOps V) (s : BaseKvsStore K V) (k : K)
    (hcold : s.cache.get? k = none) :
    (BaseKvsStore.get K_ops V_ops s true k).1 =
      load_value K_ops V_ops s.interner s.db k (! s.is_transient) := by
  simp only [BaseKvsStore.get, hcold]
  cases hl : load_value K_ops V_ops s.interner s.db k (! s.is_transient) <;>
    simp [hl]

/-- C1: on a cold cache entry for `k`, `get(k)` performs the stored-row case
analysis of `load_value` with `is_migration_mandatory = !T::IS_TRANSIENT`:
no row for the serialized key returns `None`; an exact value-schema
(name, version) match returns the deserialized value; a mismatch the value
type can migrate from returns the migrated value; a mismatch with no
migration path returns an error when the store is persistent and `None`
(a cache-style miss) when the store is transient. -/
theorem claim_c1_get_schema_cases {K V : Type} [DecidableEq K]
    (K_ops : SerialOps K) (V_ops : SerialOps V) (s : BaseKvsStore K V)
    (k : K) (kb : List Nat)
    (hser : K_ops.serialize k = .ok kb)
    (hcold : s.cache.get? k = none) :
    (s.db.find kb = none →
      (BaseKvsStore.get K_ops V_ops s true k).1 = .ok none) ∧
    (∀ cell, s.db.find kb = some cell →
      ((V_ops.ID = s.interner.lookup_id cell.value_schema_id ∧
        V_ops.SCHEMA_VERSION = cell.value_schema_ver) →
        (BaseKvsStore.get K_ops V_ops s true k).1 =
          (V_ops.deserialize cell.value).map some) ∧
      (¬ (V_ops.ID = s.interner.lookup_id cell.value_schema_id ∧
          V_ops.SCHEMA_VERSION = cell.value_schema_ver) →
        V_ops.can_migrate_from (s.interner.lookup_id cell.value_schema_id)
          cell.value_schema_ver = true →
        (BaseKvsStore.get K_ops V_ops s true k).1 =
          (V_ops.do_migration (s.interner.lookup_id cell.value_schema_id)
            cell.value_schema_ver cell.value).map some) ∧
      (¬ (V_ops.ID = s.interner.lookup_id cell.value_schema_id ∧
          V_ops.SCHEMA_VERSION = cell.value_schema_ver) →
        V_ops.can_migrate_from (s.interner.lookup_id cell.value_schema_id)
          cell.value_schema_ver = false →
        (s.is_transient = true →
          (BaseKvsStore.get K_ops V_ops s true k).1 = .ok none) ∧
        (s.is_transient = false →
          ∃ e, (BaseKvsStore.get K_ops V_ops s true k).1 = .error e))) := by
  have hred := get_cold_cache K_ops V_ops s k hcold
  refine ⟨?_, fun cell hcell => ⟨?_, ?_, ?_⟩⟩
  · intro hnone
    rw [hred]
    simp [load_value, hser, hnone]
  · intro hmatch
    rw [hred]
    simp only [load_value, hser, hcell]
    rw [if_pos hmatch]
    cases hd : V_ops.deserialize cell.value <;> simp [hd, Except.map]
  · intro hnm hmig
    rw [hred]
    simp only [load_value, hser, hcell]
    rw [if_neg hnm, if_pos hmig]
    cases hd : V_ops.do_migration (s.interner.lookup_id cell.value_schema_id)
        cell.value_schema_ver cell.value <;>
      simp [hd, Except.map]
  · intro hnm hnmig
    constructor
    · intro ht
      rw [hred]
      simp only [load_value, hser, hcell, ht]
      rw [if_neg hnm]
      simp [hnmig]
    · intro ht
      rw [hred]
      simp only [load_value, hser, hcell, ht]
      rw [if_neg hnm]
      simp [hnmig]

/-! ## Concrete instantiations used by the witnesses -/

def natOps : SerialOps Nat :=
  ⟨"nat", 1, fun n => .ok [n], fun l => .ok (l.headD 0), fun _ _ => false,
    fun _ _ _ => .error "no migration"⟩

def internW : StringInterner :=
  ⟨fun _ => 7, fun n => if n = 7 then "nat" else "other"⟩

def ddlW : DdlOutcome := ⟨true, true, true⟩

def evW : InitKvsEvent := ⟨[], [], [], ⟨⟨[], []⟩, ⟨[], []⟩⟩⟩

def storeW : BaseKvsStore Nat Nat := ⟨false, internW, 7, ⟨[]⟩, ⟨1024, []⟩⟩

def storeW_after_set : BaseKvsStore Nat Nat :=
  (BaseKvsStore.set natOps natOps storeW true 5 42).2

def storeW_after_remove : BaseKvsStore Nat Nat :=
  (BaseKvsStore.remove natOps storeW true 5).2

def storeW1 : BaseKvsStore Nat Nat :=
  ⟨false, internW, 7, ⟨[([5], ⟨[42], 7, 1⟩)]⟩, ⟨1024, []⟩⟩

def dbW : DbState := ⟨⟨[], []⟩, ⟨[⟨"m", "t1", 0, 7, 1⟩], ["t1"]⟩⟩

def dbW2 : DbState := ⟨⟨[], []⟩, ⟨[⟨"m", "t1", 0, 7, 1⟩], []⟩⟩

def metaW : List (KvsTarget × KvsMetadata) := [(⟨"m", true⟩, ⟨"t1", 7, 1, false⟩)]

def evW1 : InitKvsEvent :=
  match init_module internW evW ddlW "nat" 1 "m1" false with
  | .ok e => e
  | .error _ => evW

def declsW : List KvsDecl :=
  [⟨"nat", 1, "m1", false, ddlW⟩, ⟨"nat", 1, "m2", true, ddlW⟩]

def evW8 : InitKvsEvent :=
  match run_init_kvs_event internW evW declsW with
  | .ok e => e
  | .error _ => evW

def nameW1 : String :=
  match create_table_name [] "a" with
  | some n => n
  | none => ""

def nameW2 : String :=
  match create_table_name [nameW1] "a" with
  | some n => n
  | none => ""

def evW10 : InitKvsEvent :=
  ⟨[], [], [], ⟨⟨[⟨"m", "t1", 0, 7, 1⟩], ["t1"]⟩, ⟨[], []⟩⟩⟩

/-! ## Witnesses -/

set_option maxRecDepth 100000

/-- Witness for C1: the exact-match case evaluated on a concrete persistent
store holding a row for key 5 written under the current schema. -/
theorem claim_c1_witness :
    (BaseKvsStore.get natOps natOps storeW1 true 5).1 =
      (natOps.deserialize [42]).map some :=
  ((claim_c1_get_schema_cases natOps natOps storeW1 5 [5] rfl rfl).2
    ⟨[42], 7, 1⟩ rfl).1 ⟨rfl, rfl⟩

/-- Witness for C2 (amended), at the counterexample's concrete input. -/
theorem claim_c2_witness :
    (∀ key metadata, (key, metadata) ∈ metaW → metadata.is_used = false →
      key.is_transient = true →
      metadata.table_name ∉ dbW2.transient.data_tables) ∧
    dbW2.transient.kvs_info = dbW.transient.kvs_info ∧
    dbW2.persistent = dbW.persistent :=
  claim_c2_cleanup_amended dbW dbW2 metaW rfl

/-- Witness for C3: a concrete `set(5, 42)` followed by `get 5`. -/
theorem claim_c3_witness :
    BaseKvsStore.get natOps natOps storeW_after_set true 5 =
      (.ok (some 42), storeW_after_set) :=
  (claim_c3_set_remove_get natOps natOps storeW storeW_after_set 5 42
    (by decide)).1 rfl

/-- Witness for C4: module `"m1"` declared persistent and then again
transient in the same pass. -/
theorem claim_c4_witness :
    init_module internW evW1 ddlW "nat" 1 "m1" true =
      .error ("Duplicate KVS module name found: " ++ "m1") :=
  (claim_c4_duplicate_module internW evW evW1 ddlW ddlW "nat" "nat" "m1"
    1 1 false true rfl).1

/-- Witness for C5: allocating for module `"a"` against an empty used set,
then again against a used set holding the first name: the second allocation
advances the nonce and returns a different name. -/
theorem claim_c5_witness :
    (∃ n, nameW1 = table_name_at n "a" ∧ nameW1 ∉ ([] : List String) ∧
      ∀ j, j < n → table_name_at j "a" ∈ ([] : List String)) ∧
    nameW2 ≠ nameW1 :=
  claim_c5_table_name_allocation [] [nameW1] "a" "a" nameW1 nameW2
    rfl rfl (List.mem_cons_self _ _)

/-- Witness for C6: a failing metadata `INSERT` leaves an error and no
partial state. -/
theorem claim_c6_witness :
    ∃ e, (create_kvs_table evW internW ⟨true, false, true⟩ "m" "t" "nat"
      1 false).1 = .error e :=
  (claim_c6_create_table_atomic evW internW ⟨true, false, true⟩ "m" "t"
    "nat" 1 false).2.1 (Or.inr (Or.inl rfl))

/-- Witness for C7: a failed database round-trip propagates the error and
leaves the store (including its cache) unchanged. -/
theorem claim_c7_witness :
    BaseKvsStore.set natOps natOps storeW false 5 42 =
      (.error "database connection failed", storeW) :=
  (claim_c7_set_write_through natOps natOps storeW 5 42).1

/-- Witness for C8: after a successful two-store pass, the finalization
lookup for the transient store `"m2"` succeeds. -/
theorem claim_c8_witness :
    (BaseKvsStoreInfo_new evW8.module_metadata "m2" true).isSome = true :=
  claim_c8_finalization_lookup internW evW evW8 declsW
    ⟨"nat", 1, "m2", true, ddlW⟩ rfl
    (List.mem_cons_of_mem _ (List.mem_cons_self _ _))

/-- Witness for C10: one version-0 row in the persistent area. -/
theorem claim_c10_witness :
    ((load_kvs_metadata evW10 false).isOk = true ↔
      ∀ r ∈ (evW10.db.area false).kvs_info, r.kvs_schema_version = 0) ∧
    (∀ ev2, load_kvs_metadata evW10 false = .ok ev2 →
      ∀ r ∈ (evW10.db.area false).kvs_info,
        r.table_name ∈ ev2.used_table_names ∧
        ∃ m, lookupMeta ev2.module_metadata ⟨r.module_path, false⟩ = some m ∧
          m.is_used = false) :=
  claim_c10_load_metadata evW10 false

end Sylphie
